import Mathlib

/-!
# Auto-Duck BGM: the ducking decision cycle of `Engine::running`

A shallow embedding of `src/src/Engine.cpp` / `src/src/Engine.h`.

Modelling conventions
* C++ `float`.  The decision cycle is embedded twice.  `tickDecision` (with `step`,
  `newVolume`, `closedLoop`) takes the `float` values as exact rationals (`ℚ`) and the
  literal `0.001` as `1/1000`; it carries the statements that are made over exact
  arithmetic or do not depend on the arithmetic.  Division by `paramFadeSpeedMS = 0`
  is outside this embedding (Lean gives `x / 0 = 0`).  `tickDecision32` (with
  `step32`, `newVolume32`, `closedLoop32`) rounds every `float` operation to IEEE 754
  binary32 (round to nearest, ties to even, overflow to an infinity, NaN), compares
  with the `double` literal `0.001` and clamps with the `min` / `max` macros of
  `windows.h`.  There the finite `float` values are rationals, the sign of a zero is
  not represented (a zero divisor counts as `+0`), and every operation is rounded to
  `float` on its own (no contraction, no wider intermediate precision).
* C++ `int` is `Int` with explicit two's-complement wrap-around (`wrapInt`) on `+ 1`.
* COM calls that can fail are part of the per-tick input: every accessor of an
  `AudioSession` carries its result as `Except String _`, `SetMasterVolume` and
  `CreateProcessW` carry a success flag.  A thrown `std::runtime_error` leaves the
  engine fields as they were at the throw and is recorded in `error`.
* Console output and the short status string are not modelled.
* `bypassed` is sampled once per tick.
-/

namespace AutoDuck

/-! ## Constants and machine integers -/

/-- `CMD_START` of `Engine.h`. -/
def CMD_START : String := "cmd.exe /C "

/-- Largest value of a 32-bit C++ `int`. -/
def INT_MAX : Int := 2147483647

/-- Two's-complement wrap-around of a mathematical integer into a 32-bit `int`. -/
def wrapInt (x : Int) : Int := (x + 2147483648) % 4294967296 - 2147483648

/-! ## Data model -/

/-- The `param*` fields of `Engine` (set from the INI file). -/
structure Params where
  paramFadeSpeedMS : ℚ
  paramTickIdleMS : ℚ
  paramTickTransitionMS : ℚ
  paramVolumeMinimumToTrigger : ℚ
  paramVolumeMax : ℚ
  paramVolumeMin : ℚ
  paramVolumeRestore : ℚ
  paramConsecutiveMinimumsToEnd : Int
  paramConsecutiveMinimumsToTrigger : Int
  paramExcludedExecutables : List String
  paramControlledExecutable : String
  paramCommandOnDuck : String
  paramCommandOnUnduck : String

/-- One `AudioSession` within a single tick: the (cached) results of its accessors.
`setVolumeSucceeds` tells whether `SetMasterVolume` accepts a write. -/
structure AudioSession where
  executableName : Except String String
  peakAudioLevel : Except String ℚ
  sessionVolume : Except String ℚ
  setVolumeSucceeds : Bool

/-- The two hysteresis counters `currentConsecutiveMinimumsToTrigger` and
`currentConsecutiveMinimumsToEnd` of `Engine`. -/
structure Counters where
  currentConsecutiveMinimumsToTrigger : Int
  currentConsecutiveMinimumsToEnd : Int
deriving DecidableEq, Repr

/-- Engine state and effects in the course of one loop iteration of `Engine::running`:
the counters, the local `sleepNeeded`, the arguments of the `setSessionVolume` calls
made, the command lines handed to `CreateProcessW`, and the error thrown (if any). -/
structure Tick where
  counters : Counters
  sleepNeeded : ℚ
  volumeSetCalls : List ℚ
  commandsRun : List String
  error : Option String
deriving DecidableEq, Repr

/-- Sequencing of statements: once an exception is in flight nothing more runs. -/
def Tick.andThen (t : Tick) (f : Tick → Tick) : Tick :=
  match t.error with
  | none => f t
  | some _ => t

/-! ## Operations of `AudioSession` and `Engine` -/

/-- `AudioSession::setSessionVolume`: calls `SetMasterVolume(newVolume)`; throws
"Failed to set volume" when the call fails. -/
def setSessionVolume (s : AudioSession) (newVolume : ℚ) (t : Tick) : Tick :=
  if s.setVolumeSucceeds then
    { t with volumeSetCalls := t.volumeSetCalls ++ [newVolume] }
  else
    { t with volumeSetCalls := t.volumeSetCalls ++ [newVolume],
             error := some "Failed to set volume" }

/-- `Engine::runCommandSilent`: launches `CMD_START + command` hidden and waits for it;
throws when `CreateProcessW` fails.  There is no test for an empty command. -/
def runCommandSilent (createProcessSucceeds : Bool) (command : String) (t : Tick) : Tick :=
  if createProcessSucceeds then
    { t with commandsRun := t.commandsRun ++ [CMD_START ++ command] }
  else
    { t with commandsRun := t.commandsRun ++ [CMD_START ++ command],
             error := some "Failed to create process for command" }

/-- Loop of `Engine::getMaxPeakAudioLevel`, with the running maximum `maxVolume`. -/
def getMaxPeakAudioLevelFrom (excludedExecutables : List String) :
    ℚ → List AudioSession → Except String ℚ
  | maxVolume, [] => .ok maxVolume
  | maxVolume, session :: rest =>
    match session.executableName with
    | .error e => .error e
    | .ok name =>
      if name ∈ excludedExecutables then
        getMaxPeakAudioLevelFrom excludedExecutables maxVolume rest
      else
        match session.peakAudioLevel with
        | .error e => .error e
        | .ok volume =>
          getMaxPeakAudioLevelFrom excludedExecutables
            (if volume > maxVolume then volume else maxVolume) rest

/-- `Engine::getMaxPeakAudioLevel`. -/
def getMaxPeakAudioLevel (sessions : List AudioSession)
    (excludedExecutables : List String) : Except String ℚ :=
  getMaxPeakAudioLevelFrom excludedExecutables 0 sessions

/-- `Engine::getAudioSessionByExecutableName`: the first session whose name is
non-empty and equal to `executableName`; `none` is the `nullptr` result. -/
def getAudioSessionByExecutableName (executableName : String) :
    List AudioSession → Except String (Option AudioSession)
  | [] => .ok none
  | session :: rest =>
    match session.executableName with
    | .error e => .error e
    | .ok processName =>
      if processName ≠ "" ∧ processName = executableName then .ok (some session)
      else getAudioSessionByExecutableName executableName rest

/-- The target volume computed at lines 333-340 of `Engine::running`. -/
def volumeTarget (p : Params) (bypassed : Bool) (maxVolume : ℚ) : ℚ :=
  if bypassed then p.paramVolumeRestore
  else if maxVolume > p.paramVolumeMinimumToTrigger then p.paramVolumeMin
  else p.paramVolumeMax

/-- The saturating increment at lines 360-368: the counter selected by the target is
set to `min(counter + 1, threshold)`, the other one is left as it is. -/
def incrementCounters (p : Params) (target : ℚ) (c : Counters) : Counters :=
  if target = p.paramVolumeMin then
    ⟨min (wrapInt (c.currentConsecutiveMinimumsToTrigger + 1))
        p.paramConsecutiveMinimumsToTrigger,
      c.currentConsecutiveMinimumsToEnd⟩
  else
    ⟨c.currentConsecutiveMinimumsToTrigger,
      min (wrapInt (c.currentConsecutiveMinimumsToEnd + 1)) p.paramConsecutiveMinimumsToEnd⟩

/-- The test at lines 371-374: either counter equals its threshold. -/
def atThreshold (p : Params) (c : Counters) : Bool :=
  c.currentConsecutiveMinimumsToTrigger = p.paramConsecutiveMinimumsToTrigger ∨
  c.currentConsecutiveMinimumsToEnd = p.paramConsecutiveMinimumsToEnd

/-- The local `directionMult` (line 376), over exact rationals. -/
def directionMult (volumeCurrent target : ℚ) : ℚ :=
  if volumeCurrent - target > 0 then -1 else 1

/-- The local `step` (lines 379-382), over exact rationals. -/
def step (p : Params) (volumeCurrent target : ℚ) : ℚ :=
  (p.paramVolumeMax - p.paramVolumeMin) *
    (p.paramTickTransitionMS / p.paramFadeSpeedMS) * directionMult volumeCurrent target

/-- The local `newVolume` (lines 384-386), over exact rationals. -/
def newVolume (p : Params) (volumeCurrent target : ℚ) : ℚ :=
  min (max (volumeCurrent + step p volumeCurrent target) p.paramVolumeMin) p.paramVolumeMax

/-- Lines 376-406 of `Engine::running`, over exact rationals: one committed fade step. -/
def commitFadeStep (p : Params) (createProcessSucceeds : Bool) (s : AudioSession)
    (volumeCurrent target : ℚ) (t : Tick) : Tick :=
  (((setSessionVolume s (newVolume p volumeCurrent target) t).andThen fun t =>
    { t with sleepNeeded := p.paramTickTransitionMS,
             counters := ⟨p.paramConsecutiveMinimumsToTrigger,
                          p.paramConsecutiveMinimumsToEnd⟩ }).andThen
    fun t =>
      if newVolume p volumeCurrent target = p.paramVolumeMin ∧
          directionMult volumeCurrent target < 0 then
        runCommandSilent createProcessSucceeds p.paramCommandOnDuck t
      else t).andThen
    fun t =>
      if volumeCurrent = p.paramVolumeMin ∧ directionMult volumeCurrent target > 0 then
        runCommandSilent createProcessSucceeds p.paramCommandOnUnduck t
      else t

/-- Lines 351-356 of `Engine::running`: the bypass write. -/
def bypassRestore (p : Params) (createProcessSucceeds : Bool) (s : AudioSession)
    (volumeCurrent : ℚ) (t : Tick) : Tick :=
  (setSessionVolume s p.paramVolumeRestore t).andThen fun t =>
    if volumeCurrent = p.paramVolumeMin then
      runCommandSilent createProcessSucceeds p.paramCommandOnUnduck t
    else t

/-- Lines 333-419 of `Engine::running`, over exact rationals: the decision cycle of
one tick, given the maximum peak level and the controlled session found (`none` when
absent). -/
def tickDecision (p : Params) (bypassed createProcessSucceeds : Bool) (maxVolume : ℚ)
    (sessionControls : Option AudioSession) (c : Counters) : Tick :=
  let target := volumeTarget p bypassed maxVolume
  let t : Tick := ⟨c, p.paramTickIdleMS, [], [], none⟩
  match sessionControls with
  | none => t
  | some s =>
    match s.sessionVolume with
    | .error e => { t with error := some e }
    | .ok volumeCurrent =>
      let shouldTransition : Bool := |volumeCurrent - target| > 1 / 1000
      (if shouldTransition ∧ bypassed then
          bypassRestore p createProcessSucceeds s volumeCurrent t
        else t).andThen fun t =>
        if shouldTransition ∧ ¬ bypassed then
          let t := { t with counters := incrementCounters p target t.counters }
          if atThreshold p t.counters then
            commitFadeStep p createProcessSucceeds s volumeCurrent target t
          else t
        else
          { t with counters := ⟨0, 0⟩ }

/-- What the outside world presents to one loop iteration. -/
structure World where
  bypassed : Bool
  audioSessions : Except String (List AudioSession)
  createProcessSucceeds : Bool

/-- Lines 326-419 of `Engine::running`: one loop iteration up to (not including) the
sleep. -/
def tick (p : Params) (w : World) (c : Counters) : Tick :=
  let t : Tick := ⟨c, p.paramTickIdleMS, [], [], none⟩
  match w.audioSessions with
  | .error e => { t with error := some e }
  | .ok sessions =>
    match getMaxPeakAudioLevel sessions p.paramExcludedExecutables with
    | .error e => { t with error := some e }
    | .ok maxVolume =>
      match getAudioSessionByExecutableName p.paramControlledExecutable sessions with
      | .error e => { t with error := some e }
      | .ok sessionControls =>
        tickDecision p w.bypassed w.createProcessSucceeds maxVolume sessionControls c

/-! ## Runs of the loop -/

/-- What the decision cycle of one tick receives: the bypass toggle, whether a command
launch would succeed, the maximum peak level and the controlled session (if found). -/
structure TickInput where
  bypassed : Bool
  createProcessSucceeds : Bool
  maxVolume : ℚ
  sessionControls : Option AudioSession

/-- The `while (!hasError())` loop of `Engine::running` over successive inputs: the
outcome of every iteration executed, in order.  An iteration that throws is the last. -/
def runDecisions (p : Params) : Counters → List TickInput → List Tick
  | _, [] => []
  | c, i :: rest =>
    let t := tickDecision p i.bypassed i.createProcessSucceeds i.maxVolume i.sessionControls c
    match t.error with
    | none => t :: runDecisions p t.counters rest
    | some _ => [t]

/-- The controlled session as the provider presents it while it holds volume `v`:
readable and accepting writes. -/
def liveSession (p : Params) (v : ℚ) : AudioSession :=
  ⟨.ok p.paramControlledExecutable, .ok 0, .ok v, true⟩

/-- The volume the session holds after a tick: the last value written, if any. -/
def volumeAfter (v : ℚ) (t : Tick) : ℚ :=
  match t.volumeSetCalls.getLast? with
  | some w => w
  | none => v

/-- The default configuration `SETTINGS_DEFAULT` of `Engine.h` (with `fVolumeMin` as
written there). -/
def defaultParams : Params where
  paramFadeSpeedMS := 1000
  paramTickIdleMS := 1000
  paramTickTransitionMS := 50
  paramVolumeMinimumToTrigger := 0
  paramVolumeMax := 1 / 5
  paramVolumeMin := 0
  paramVolumeRestore := 1
  paramConsecutiveMinimumsToEnd := 3
  paramConsecutiveMinimumsToTrigger := 1
  paramExcludedExecutables := ["nvcontainer.exe", "amdow.exe", "amddvr.exe", "foobar2000.exe"]
  paramControlledExecutable := "foobar2000.exe"
  paramCommandOnDuck := ""
  paramCommandOnUnduck := ""

/-- The invariant of the counters between completed ticks: both primed at their
thresholds, or both non-negative and below their thresholds. -/
def CountersInv (p : Params) (c : Counters) : Prop :=
  (c.currentConsecutiveMinimumsToTrigger = p.paramConsecutiveMinimumsToTrigger ∧
    c.currentConsecutiveMinimumsToEnd = p.paramConsecutiveMinimumsToEnd) ∨
  (0 ≤ c.currentConsecutiveMinimumsToTrigger ∧
    c.currentConsecutiveMinimumsToTrigger < p.paramConsecutiveMinimumsToTrigger ∧
    0 ≤ c.currentConsecutiveMinimumsToEnd ∧
    c.currentConsecutiveMinimumsToEnd < p.paramConsecutiveMinimumsToEnd)

/-- The `while (!hasError())` loop of `Engine::running` over successive worlds: the
outcome of every iteration executed, in order.  An iteration that throws is the last. -/
def runTicks (p : Params) : Counters → List World → List Tick
  | _, [] => []
  | c, w :: rest =>
    let t := tick p w c
    match t.error with
    | none => t :: runTicks p t.counters rest
    | some _ => [t]

/-- A world in which the sessions are enumerated, their names and the peak levels of
the non-excluded ones are read without failure, and no visible session has the
controlled executable's name. -/
def ControlledAbsent (p : Params) (w : World) : Prop :=
  ∃ sessions maxVolume,
    w.audioSessions = .ok sessions ∧
    getMaxPeakAudioLevel sessions p.paramExcludedExecutables = .ok maxVolume ∧
    ∀ s ∈ sessions, s.executableName ≠ .ok p.paramControlledExecutable

/-- The settings file as `Engine::readSettingsINI` sees it: the outcome of
`tryCreateDefaultSettingsINI` and, for a section and a key, the outcome of
`readINIValueStringW` (the string stored, or the exception thrown). -/
structure SettingsINI where
  tryCreateDefault : Except String Unit
  readINIValueStringW : String → String → Except String String

/-- The library conversions `std::stof` and `std::stoi` (they throw on malformed
input). -/
structure Parsers where
  stof : String → Except String ℚ
  stoi : String → Except String Int

/-- The `float` instance of `readINIValue`: the value read and converted. -/
def readINIFloat (ps : Parsers) (ini : SettingsINI) (sect key : String) : Except String ℚ :=
  match ini.readINIValueStringW sect key with
  | .error e => .error e
  | .ok str => ps.stof str

/-- The `int` instance of `readINIValue`. -/
def readINIInt (ps : Parsers) (ini : SettingsINI) (sect key : String) : Except String Int :=
  match ini.readINIValueStringW sect key with
  | .error e => .error e
  | .ok str => ps.stoi str

/-- The list instance of `readINIValue`: the values separated by `/`. -/
def readINIList (ini : SettingsINI) (sect key : String) : Except String (List String) :=
  match ini.readINIValueStringW sect key with
  | .error e => .error e
  | .ok str => .ok (str.splitOn "/")

/-- The parameters in the course of `readSettingsINI`, with the exception thrown (if
any). -/
structure Loading where
  params : Params
  error : Option String

/-- Sequencing of the reads: once an exception is in flight nothing more runs. -/
def Loading.andThen (l : Loading) (f : Params → Loading) : Loading :=
  match l.error with
  | none => f l.params
  | some _ => l

/-- One `readINIValue(section, key, value)` statement: `value` is assigned when the
read succeeds and left as it is when it throws. -/
def assignFrom {α : Type} (r : Except String α) (assign : Params → α → Params)
    (p : Params) : Loading :=
  match r with
  | .error e => ⟨p, some e⟩
  | .ok a => ⟨assign p a, none⟩

/-- The list `readINIValue` statement: the vector is cleared before the read, so it is
left empty when the read throws. -/
def assignListFrom (r : Except String (List String)) (p : Params) : Loading :=
  match r with
  | .error e => ⟨{ p with paramExcludedExecutables := [] }, some e⟩
  | .ok l => ⟨{ p with paramExcludedExecutables := l }, none⟩

/-- `Engine::readSettingsINI` (lines 212-244): the parameters afterwards and the
exception caught; it returns `true` exactly when `error` is `none`. -/
def readSettingsINI (ps : Parsers) (ini : SettingsINI) (p : Params) : Loading :=
  (((((((((((((assignFrom ini.tryCreateDefault (fun p _ => p) p).andThen
    (assignFrom (readINIFloat ps ini "Performance" "fTickIdleMS")
      fun p v => { p with paramTickIdleMS := v })).andThen
    (assignFrom (readINIFloat ps ini "Performance" "fTickTransitionsMS")
      fun p v => { p with paramTickTransitionMS := v })).andThen
    (assignFrom (readINIFloat ps ini "General" "fFadeSpeedMS")
      fun p v => { p with paramFadeSpeedMS := v })).andThen
    (assignFrom (readINIFloat ps ini "General" "fVolumeMinimumToTrigger")
      fun p v => { p with paramVolumeMinimumToTrigger := v })).andThen
    (assignFrom (readINIFloat ps ini "General" "fVolumeMax")
      fun p v => { p with paramVolumeMax := v })).andThen
    (assignFrom (readINIInt ps ini "General" "iConsecutiveMinimumsToTrigger")
      fun p v => { p with paramConsecutiveMinimumsToTrigger := v })).andThen
    (assignFrom (readINIInt ps ini "General" "iConsecutiveMinimumsToEnd")
      fun p v => { p with paramConsecutiveMinimumsToEnd := v })).andThen
    (assignListFrom (readINIList ini "General" "sExcludedExecutables"))).andThen
    (assignFrom (ini.readINIValueStringW "General" "sControlledExecutable")
      fun p v => { p with paramControlledExecutable := v })).andThen
    (fun p => ⟨{ p with paramExcludedExecutables :=
      p.paramExcludedExecutables ++ [p.paramControlledExecutable] }, none⟩)).andThen
    (assignFrom (readINIFloat ps ini "General" "fVolumeRestore")
      fun p v => { p with paramVolumeRestore := v })).andThen
    (assignFrom (ini.readINIValueStringW "General" "sCommandOnDuck")
      fun p v => { p with paramCommandOnDuck := v })).andThen
    (assignFrom (ini.readINIValueStringW "General" "sCommandOnUnduck")
      fun p v => { p with paramCommandOnUnduck := v })

/-- A toy `std::stof` / `std::stoi` that knows the numerals of `SETTINGS_DEFAULT`. -/
def defaultParsers : Parsers where
  stof := fun s =>
    if s = "1000.0" then .ok 1000 else if s = "50.0" then .ok 50
    else if s = "0.0" then .ok 0 else if s = "0.2" then .ok (1 / 5)
    else if s = "1.0" then .ok 1 else .error "invalid stof argument"
  stoi := fun s =>
    if s = "1" then .ok 1 else if s = "3" then .ok 3 else .error "invalid stoi argument"

/-- The settings file holding `SETTINGS_DEFAULT` of `Engine.h`. -/
def defaultINI : SettingsINI where
  tryCreateDefault := .ok ()
  readINIValueStringW := fun sect key =>
    if sect = "Performance" ∧ key = "fTickIdleMS" then .ok "1000.0"
    else if sect = "Performance" ∧ key = "fTickTransitionsMS" then .ok "50.0"
    else if sect = "General" ∧ key = "fFadeSpeedMS" then .ok "1000.0"
    else if sect = "General" ∧ key = "iConsecutiveMinimumsToTrigger" then .ok "1"
    else if sect = "General" ∧ key = "iConsecutiveMinimumsToEnd" then .ok "3"
    else if sect = "General" ∧ key = "fVolumeMinimumToTrigger" then .ok "0.0"
    else if sect = "General" ∧ key = "fVolumeMin" then .ok "0.0"
    else if sect = "General" ∧ key = "fVolumeMax" then .ok "0.2"
    else if sect = "General" ∧ key = "fVolumeRestore" then .ok "1.0"
    else if sect = "General" ∧ key = "sExcludedExecutables" then
      .ok "nvcontainer.exe/amdow.exe/amddvr.exe"
    else if sect = "General" ∧ key = "sControlledExecutable" then .ok "foobar2000.exe"
    else if sect = "General" ∧ key = "sCommandOnDuck" then .ok ""
    else if sect = "General" ∧ key = "sCommandOnUnduck" then .ok ""
    else .error "Failed to read value from INI file"

/-- Two snapshots of a session that differ at most in the peak level, and only when
the session is named `controlled`. -/
def DiffersInControlledPeak (controlled : String) (a b : AudioSession) : Prop :=
  a.executableName = b.executableName ∧ a.sessionVolume = b.sessionVolume ∧
  a.setVolumeSucceeds = b.setVolumeSucceeds ∧
  (a.executableName ≠ .ok controlled → a.peakAudioLevel = b.peakAudioLevel)

/-- Engine parameters before a load in which `paramVolumeMin` happens to be 0.7. -/
def staleParams : Params := { defaultParams with paramVolumeMin := 7 / 10 }

/-! ## Sleep interval -/

/-- `Engine::handleError`: the error string recorded for an exception with the given
`what()` text; it is never empty. -/
def handleError (what : String) : String :=
  if what = "" then "Unknown error" else what

/-- `Engine::hasError`: the error string is not empty. -/
def hasError (errorString : String) : Bool := errorString ≠ ""

/-- What one call of `Engine::running` did: the loop iterations executed, the
`setSessionVolume` calls of the final restore (lines 434-443), the error string
afterwards and the value returned (`hasError()`). -/
structure Run where
  ticks : List Tick
  restoreCalls : List ℚ
  errorString : String
  returned : Bool

/-- The error string after the loop: the exception of the last iteration, if it threw,
as recorded by `handleError` in the `catch` of lines 429-431. -/
def errorAfterLoop (ticks : List Tick) : String :=
  match ticks.getLast? with
  | some t =>
    match t.error with
    | some e => handleError e
    | none => ""
  | none => ""

/-- Lines 434-443 of `Engine::running`: the attempt to restore the volume, in the world
found after the loop: the `setSessionVolume` calls made and the exception thrown, if
any. -/
def restoreVolume (p : Params) (final : World) : List ℚ × Option String :=
  match final.audioSessions with
  | .error e => ([], some e)
  | .ok sessions =>
    match getAudioSessionByExecutableName p.paramControlledExecutable sessions with
    | .error e => ([], some e)
    | .ok none => ([], none)
    | .ok (some s) =>
      ([p.paramVolumeRestore],
        if s.setVolumeSucceeds then none else some "Failed to set volume")

/-- `Engine::running` (lines 316-446), started with an empty error string: the settings
are loaded into the parameters `p0`, `init` succeeds or throws, the loop runs over the
worlds of the successive iterations until one throws or the list ends (quit requested),
and the volume is restored in the world `final`. -/
def running (ps : Parsers) (ini : SettingsINI) (init : Except String Unit) (p0 : Params)
    (c : Counters) (worlds : List World) (final : World) : Run :=
  match (readSettingsINI ps ini p0).error with
  | some e => ⟨[], [], handleError e, hasError (handleError e)⟩
  | none =>
    match init with
    | .error e => ⟨[], [], handleError e, hasError (handleError e)⟩
    | .ok _ =>
      let p := (readSettingsINI ps ini p0).params
      let ticks := runTicks p c worlds
      let restore := restoreVolume p final
      let errorString :=
        match restore.2 with
        | some e => handleError e
        | none => errorAfterLoop ticks
      ⟨ticks, restore.1, errorString, hasError errorString⟩

/-- A world in which the session enumeration fails. -/
def brokenWorld : World :=
  ⟨false, .error "Failed to get session enumerator", true⟩

/-- A world in which `foobar2000.exe` is visible at volume 0.1 and accepts writes. -/
def restoreWorld : World :=
  ⟨false, .ok [⟨.ok "foobar2000.exe", .ok 0, .ok (1 / 10), true⟩], true⟩

/-! ## binary32 arithmetic -/

/-- A value of the C++ type `float` (IEEE 754 binary32): a finite number, an infinity
or a NaN.  The sign of a zero is not represented. -/
inductive Float32 where
  | finite (q : ℚ)
  | infinity (negative : Bool)
  | nan
deriving DecidableEq

/-- Rounding to the nearest integer, a tie going to the even neighbour. -/
def roundHalfEven (x : ℚ) : ℤ :=
  if x - ⌊x⌋ < 1 / 2 then ⌊x⌋
  else if 1 / 2 < x - ⌊x⌋ then ⌊x⌋ + 1
  else if ⌊x⌋ % 2 = 0 then ⌊x⌋
  else ⌊x⌋ + 1

/-- The number of halvings that bring `n` below 2, at most `fuel` of them. -/
def halvings : ℕ → ℕ → ℕ
  | 0, _ => 0
  | fuel + 1, n => if n < 2 then 0 else halvings fuel (n / 2) + 1

/-- The bit length minus one, `⌊log₂ n⌋`, of a positive natural number. -/
def natLog2 (n : ℕ) : ℕ := halvings n n

/-- The binary exponent `⌊log₂ a⌋` of a positive rational `a`, from the bit lengths
of its numerator and denominator. -/
def floorLog2 (a : ℚ) : ℤ :=
  if (2 : ℚ) ^ ((natLog2 a.num.natAbs : ℤ) - (natLog2 a.den : ℤ)) ≤ a then
    (natLog2 a.num.natAbs : ℤ) - (natLog2 a.den : ℤ)
  else (natLog2 a.num.natAbs : ℤ) - (natLog2 a.den : ℤ) - 1

/-- The spacing of the binary32 numbers around the magnitude `a`: `2 ^ (e - 23)` with
`e = ⌊log₂ a⌋`, and `e = -126` throughout the subnormal range. -/
def spacing (a : ℚ) : ℚ := (2 : ℚ) ^ (max (floorLog2 a) (-126) - 23)

/-- The magnitude `a` rounded to 24 significant bits (ties to even), with no upper
bound on the exponent. -/
def roundMagnitude (a : ℚ) : ℚ := (roundHalfEven (a / spacing a) : ℚ) * spacing a

/-- IEEE 754 rounding of a real number to binary32 (round to nearest, ties to even): a
result of magnitude `2 ^ 128` or more is an infinity. -/
def toFloat32 (x : ℚ) : Float32 :=
  if 2 ^ 128 ≤ roundMagnitude |x| then .infinity (decide (x < 0))
  else .finite (if x < 0 then -roundMagnitude |x| else roundMagnitude |x|)

/-- The rational `x` is a binary32 number. -/
def IsFloat32 (x : ℚ) : Prop := toFloat32 x = .finite x

instance (x : ℚ) : Decidable (IsFloat32 x) := by
  unfold IsFloat32; infer_instance

/-- The `float` difference `a - b` of two finite numbers. -/
def Float32.sub (a b : ℚ) : Float32 := toFloat32 (a - b)

/-- The `float` quotient `a / b` of two finite numbers; a zero divisor is taken as
`+0`. -/
def Float32.div (a b : ℚ) : Float32 :=
  if b = 0 then
    if a = 0 then .nan else .infinity (decide (a < 0))
  else toFloat32 (a / b)

/-- The `float` product. -/
def Float32.mul : Float32 → Float32 → Float32
  | .finite a, .finite b => toFloat32 (a * b)
  | .finite a, .infinity n => if a = 0 then .nan else .infinity (decide (a < 0) != n)
  | .infinity n, .finite b => if b = 0 then .nan else .infinity (n != decide (b < 0))
  | .infinity n, .infinity m => .infinity (n != m)
  | _, _ => .nan

/-- The `float` sum. -/
def Float32.add : Float32 → Float32 → Float32
  | .finite a, .finite b => toFloat32 (a + b)
  | .finite _, .infinity n => .infinity n
  | .infinity n, .finite _ => .infinity n
  | .infinity n, .infinity m => if n = m then .infinity n else .nan
  | _, _ => .nan

/-- The magnitude `std::abs(a)`. -/
def Float32.abs : Float32 → Float32
  | .finite a => .finite |a|
  | .infinity _ => .infinity false
  | .nan => .nan

/-- The comparison `a > b` with a finite number `b` (false for a NaN). -/
def Float32.gt : Float32 → ℚ → Bool
  | .finite a, b => decide (a > b)
  | .infinity n, _ => !n
  | .nan, _ => false

/-- The expression `min(max(x, lo), hi)` with the macros of `windows.h`:
`max(a, b)` is `a > b ? a : b` and `min(a, b)` is `a < b ? a : b`. -/
def clampMacro (x : Float32) (lo hi : ℚ) : ℚ :=
  match x with
  | .finite q => if (if q > lo then q else lo) < hi then (if q > lo then q else lo) else hi
  | .infinity false => hi
  | .infinity true => if lo < hi then lo else hi
  | .nan => if lo < hi then lo else hi

/-- The `double` literal `0.001` of line 349. -/
def LITERAL_0_001 : ℚ := 1152921504606847 / 1152921504606846976

/-- Every `float` parameter of the configuration is a binary32 number. -/
def FloatParams (p : Params) : Prop :=
  IsFloat32 p.paramFadeSpeedMS ∧ IsFloat32 p.paramTickIdleMS ∧
    IsFloat32 p.paramTickTransitionMS ∧ IsFloat32 p.paramVolumeMinimumToTrigger ∧
    IsFloat32 p.paramVolumeMax ∧ IsFloat32 p.paramVolumeMin ∧ IsFloat32 p.paramVolumeRestore

instance (p : Params) : Decidable (FloatParams p) := by
  unfold FloatParams; infer_instance

/-- The local `shouldTransition` (lines 348-349): the `float` difference, its magnitude,
compared as a `double` with the literal `0.001`. -/
def shouldTransition32 (volumeCurrent target : ℚ) : Bool :=
  (Float32.sub volumeCurrent target).abs.gt LITERAL_0_001

/-- The local `directionMult` (line 376) on the `float` difference. -/
def directionMult32 (volumeCurrent target : ℚ) : ℚ :=
  if (Float32.sub volumeCurrent target).gt 0 then -1 else 1

/-- The local `step` (lines 379-382), every operation rounded to `float`. -/
def step32 (p : Params) (volumeCurrent target : ℚ) : Float32 :=
  ((Float32.sub p.paramVolumeMax p.paramVolumeMin).mul
    (Float32.div p.paramTickTransitionMS p.paramFadeSpeedMS)).mul
    (.finite (directionMult32 volumeCurrent target))

/-- The local `newVolume` (lines 384-386) in `float` arithmetic. -/
def newVolume32 (p : Params) (volumeCurrent target : ℚ) : ℚ :=
  clampMacro ((Float32.finite volumeCurrent).add (step32 p volumeCurrent target))
    p.paramVolumeMin p.paramVolumeMax

/-- Lines 376-406 of `Engine::running` in `float` arithmetic: one committed fade
step. -/
def commitFadeStep32 (p : Params) (createProcessSucceeds : Bool) (s : AudioSession)
    (volumeCurrent target : ℚ) (t : Tick) : Tick :=
  (((setSessionVolume s (newVolume32 p volumeCurrent target) t).andThen fun t =>
    { t with sleepNeeded := p.paramTickTransitionMS,
             counters := ⟨p.paramConsecutiveMinimumsToTrigger,
                          p.paramConsecutiveMinimumsToEnd⟩ }).andThen
    fun t =>
      if newVolume32 p volumeCurrent target = p.paramVolumeMin ∧
          directionMult32 volumeCurrent target < 0 then
        runCommandSilent createProcessSucceeds p.paramCommandOnDuck t
      else t).andThen
    fun t =>
      if volumeCurrent = p.paramVolumeMin ∧ directionMult32 volumeCurrent target > 0 then
        runCommandSilent createProcessSucceeds p.paramCommandOnUnduck t
      else t

/-- Lines 333-419 of `Engine::running` in `float` arithmetic: the decision cycle of
one tick, given the maximum peak level and the controlled session found. -/
def tickDecision32 (p : Params) (bypassed createProcessSucceeds : Bool) (maxVolume : ℚ)
    (sessionControls : Option AudioSession) (c : Counters) : Tick :=
  let target := volumeTarget p bypassed maxVolume
  let t : Tick := ⟨c, p.paramTickIdleMS, [], [], none⟩
  match sessionControls with
  | none => t
  | some s =>
    match s.sessionVolume with
    | .error e => { t with error := some e }
    | .ok volumeCurrent =>
      let shouldTransition : Bool := shouldTransition32 volumeCurrent target
      (if shouldTransition ∧ bypassed then
          bypassRestore p createProcessSucceeds s volumeCurrent t
        else t).andThen fun t =>
        if shouldTransition ∧ ¬ bypassed then
          let t := { t with counters := incrementCounters p target t.counters }
          if atThreshold p t.counters then
            commitFadeStep32 p createProcessSucceeds s volumeCurrent target t
          else t
        else
          { t with counters := ⟨0, 0⟩ }

/-- Closed loop in `float` arithmetic: not bypassed, the controlled session present,
every volume read is the one last written (initially `v`), commands launch
successfully.  Each entry pairs the volume read with the outcome of the tick. -/
def closedLoop32 (p : Params) : Counters → ℚ → List ℚ → List (ℚ × Tick)
  | _, _, [] => []
  | c, v, maxVolume :: rest =>
    let t := tickDecision32 p false true maxVolume (some (liveSession p v)) c
    (v, t) :: closedLoop32 p t.counters (volumeAfter v t) rest

/-- The configuration `SETTINGS_DEFAULT` as `float` values (`0.2` is `13421773 / 2^26`). -/
def defaultParams32 : Params := { defaultParams with paramVolumeMax := 13421773 / 67108864 }

/-- The default configuration with `fVolumeMax=0.3` (the `float` `5033165 / 2^24`). -/
def wideRangeParams32 : Params := { defaultParams with paramVolumeMax := 5033165 / 16777216 }

/-- The default configuration with both hysteresis thresholds set to 2. -/
def twoSampleParams32 : Params :=
  { defaultParams32 with paramConsecutiveMinimumsToTrigger := 2,
                         paramConsecutiveMinimumsToEnd := 2 }

/-! ## Branches of the decision cycle -/

theorem wrapInt_eq_self {x : Int} (h1 : -2147483648 ≤ x) (h2 : x ≤ 2147483647) :
    wrapInt x = x := by
  unfold wrapInt; omega

theorem tickDecision_absent (p : Params) (b k : Bool) (m : ℚ) (c : Counters) :
    tickDecision p b k m none c = ⟨c, p.paramTickIdleMS, [], [], none⟩ := rfl

theorem tickDecision_atTarget (p : Params) (b k : Bool) (m v : ℚ) (s : AudioSession)
    (c : Counters) (hv : s.sessionVolume = .ok v)
    (h : |v - volumeTarget p b m| ≤ 1 / 1000) :
    tickDecision p b k m (some s) c = ⟨⟨0, 0⟩, p.paramTickIdleMS, [], [], none⟩ := by
  have h' : ¬ (1000⁻¹ < |v - volumeTarget p b m|) := by rw [← one_div]; exact not_lt.mpr h
  simp [tickDecision, hv, Tick.andThen, h']

theorem tickDecision_bypass (p : Params) (k : Bool) (m v : ℚ) (s : AudioSession)
    (c : Counters) (hv : s.sessionVolume = .ok v)
    (h : 1 / 1000 < |v - p.paramVolumeRestore|) :
    tickDecision p true k m (some s) c =
      (bypassRestore p k s v ⟨c, p.paramTickIdleMS, [], [], none⟩).andThen
        fun t => { t with counters := ⟨0, 0⟩ } := by
  rw [one_div] at h
  simp [tickDecision, hv, volumeTarget, h]

theorem tickDecision_normal (p : Params) (k : Bool) (m v : ℚ) (s : AudioSession)
    (c : Counters) (hv : s.sessionVolume = .ok v)
    (h : 1 / 1000 < |v - volumeTarget p false m|) :
    tickDecision p false k m (some s) c =
      if atThreshold p (incrementCounters p (volumeTarget p false m) c) then
        commitFadeStep p k s v (volumeTarget p false m)
          ⟨incrementCounters p (volumeTarget p false m) c, p.paramTickIdleMS, [], [], none⟩
      else ⟨incrementCounters p (volumeTarget p false m) c, p.paramTickIdleMS, [], [], none⟩ := by
  rw [one_div] at h
  simp [tickDecision, hv, h, Tick.andThen]

theorem commitFadeStep_volumeSetCalls (p : Params) (k : Bool) (s : AudioSession)
    (v tg : ℚ) (t : Tick) (ht : t.error = none) :
    (commitFadeStep p k s v tg t).volumeSetCalls = t.volumeSetCalls ++ [newVolume p v tg] := by
  unfold commitFadeStep setSessionVolume runCommandSilent Tick.andThen
  cases hs : s.setVolumeSucceeds <;> cases k <;> simp [ht] <;> split_ifs <;> simp

theorem commitFadeStep_counters (p : Params) (k : Bool) (s : AudioSession)
    (v tg : ℚ) (t : Tick) (ht : t.error = none)
    (h : (commitFadeStep p k s v tg t).error = none) :
    (commitFadeStep p k s v tg t).counters =
        ⟨p.paramConsecutiveMinimumsToTrigger, p.paramConsecutiveMinimumsToEnd⟩ ∧
      (commitFadeStep p k s v tg t).sleepNeeded = p.paramTickTransitionMS := by
  revert h
  unfold commitFadeStep setSessionVolume runCommandSilent Tick.andThen
  cases hs : s.setVolumeSucceeds <;> cases k <;> simp [ht] <;> split_ifs <;> simp

theorem bypass_counters (p : Params) (k : Bool) (s : AudioSession) (v : ℚ) (t : Tick)
    (ht : t.error = none)
    (h : ((bypassRestore p k s v t).andThen fun t => { t with counters := ⟨0, 0⟩ }).error = none) :
    ((bypassRestore p k s v t).andThen fun t => { t with counters := ⟨0, 0⟩ }).counters =
      ⟨0, 0⟩ := by
  revert h
  unfold bypassRestore setSessionVolume runCommandSilent Tick.andThen
  cases hs : s.setVolumeSucceeds <;> cases k <;> simp [ht] <;> split_ifs <;> simp

theorem tickDecision_inv (p : Params)
    (hT1 : 1 ≤ p.paramConsecutiveMinimumsToTrigger)
    (hT2 : p.paramConsecutiveMinimumsToTrigger ≤ INT_MAX)
    (hE1 : 1 ≤ p.paramConsecutiveMinimumsToEnd)
    (hE2 : p.paramConsecutiveMinimumsToEnd ≤ INT_MAX)
    (i : TickInput) (c : Counters) (hc : CountersInv p c)
    (h : (tickDecision p i.bypassed i.createProcessSucceeds i.maxVolume i.sessionControls c).error
      = none) :
    CountersInv p
      (tickDecision p i.bypassed i.createProcessSucceeds i.maxVolume i.sessionControls c).counters := by
  obtain ⟨b, k, m, sc⟩ := i
  simp only at h ⊢
  cases sc with
  | none => simpa [tickDecision_absent] using hc
  | some s =>
    cases hv : s.sessionVolume with
    | error e => simp [tickDecision, hv] at h
    | ok v =>
      have h0 : CountersInv p ⟨0, 0⟩ := Or.inr ⟨le_refl _, by simpa using hT1, le_refl _, by simpa using hE1⟩
      by_cases hT : |v - volumeTarget p b m| ≤ 1 / 1000
      · rw [tickDecision_atTarget p b k m v s c hv hT]; exact h0
      · have hT' := not_le.mp hT
        cases b with
        | true =>
          have hT'' : 1 / 1000 < |v - p.paramVolumeRestore| := by simpa [volumeTarget] using hT'
          rw [tickDecision_bypass p k m v s c hv hT''] at h ⊢
          rw [bypass_counters p k s v _ rfl h]; exact h0
        | false =>
          rw [tickDecision_normal p k m v s c hv hT'] at h ⊢
          by_cases ha : atThreshold p (incrementCounters p (volumeTarget p false m) c) = true
          · rw [if_pos ha] at h ⊢
            rw [(commitFadeStep_counters p k s v _ _ rfl h).1]
            exact Or.inl ⟨rfl, rfl⟩
          · rw [if_neg ha]
            simp only [atThreshold, incrementCounters, decide_eq_true_eq] at ha ⊢
            unfold CountersInv at hc ⊢
            unfold INT_MAX at hT2 hE2
            split_ifs at ha ⊢
            · simp only at ha ⊢
              rcases hc with ⟨h1, h2⟩ | ⟨h1, h2, h3, h4⟩
              · exact absurd (Or.inr h2) ha
              · right
                rw [wrapInt_eq_self (by omega) (by omega)] at ha ⊢
                push_neg at ha
                refine ⟨?_, ?_, h3, h4⟩
                · omega
                · rcases ha with ⟨ha1, ha2⟩
                  omega
            · simp only at ha ⊢
              rcases hc with ⟨h1, h2⟩ | ⟨h1, h2, h3, h4⟩
              · exact absurd (Or.inl h1) ha
              · right
                rw [wrapInt_eq_self (by omega) (by omega)] at ha ⊢
                push_neg at ha
                refine ⟨h1, h2, ?_, ?_⟩
                · omega
                · rcases ha with ⟨ha1, ha2⟩
                  omega

/-! ## Runs -/

theorem runDecisions_inv (p : Params)
    (hT1 : 1 ≤ p.paramConsecutiveMinimumsToTrigger)
    (hT2 : p.paramConsecutiveMinimumsToTrigger ≤ INT_MAX)
    (hE1 : 1 ≤ p.paramConsecutiveMinimumsToEnd)
    (hE2 : p.paramConsecutiveMinimumsToEnd ≤ INT_MAX) :
    ∀ (inputs : List TickInput) (c : Counters), CountersInv p c →
      ∀ t ∈ runDecisions p c inputs, t.error = none → CountersInv p t.counters := by
  intro inputs
  induction inputs with
  | nil => intro c _ t ht; simp [runDecisions] at ht
  | cons i rest ih =>
    intro c hc t ht hte
    simp only [runDecisions] at ht
    cases he : (tickDecision p i.bypassed i.createProcessSucceeds i.maxVolume
        i.sessionControls c).error with
    | none =>
      rw [he] at ht
      have hstep := tickDecision_inv p hT1 hT2 hE1 hE2 i c hc he
      rcases List.mem_cons.mp ht with h | h
      · rw [h]; exact hstep
      · exact ih _ hstep t h hte
    | some e =>
      rw [he] at ht
      simp only [List.mem_singleton] at ht
      rw [ht, he] at hte
      exact absurd hte (by simp)

theorem CountersInv.bounds {p : Params} {c : Counters} (h : CountersInv p c)
    (hT1 : 1 ≤ p.paramConsecutiveMinimumsToTrigger)
    (hE1 : 1 ≤ p.paramConsecutiveMinimumsToEnd) :
    0 ≤ c.currentConsecutiveMinimumsToTrigger ∧
    c.currentConsecutiveMinimumsToTrigger ≤ p.paramConsecutiveMinimumsToTrigger ∧
    0 ≤ c.currentConsecutiveMinimumsToEnd ∧
    c.currentConsecutiveMinimumsToEnd ≤ p.paramConsecutiveMinimumsToEnd := by
  unfold CountersInv at h
  omega

theorem getMaxPeakAudioLevelFrom_names (excluded : List String) :
    ∀ (sessions : List AudioSession) (m0 m : ℚ),
      getMaxPeakAudioLevelFrom excluded m0 sessions = .ok m →
      ∀ s ∈ sessions, ∃ n, s.executableName = .ok n := by
  intro sessions
  induction sessions with
  | nil => intro _ _ _ s hs; simp at hs
  | cons a rest ih =>
    intro m0 m h s hs
    cases hn : a.executableName with
    | error e => simp [getMaxPeakAudioLevelFrom, hn] at h
    | ok n =>
      have hrest : ∃ m1, getMaxPeakAudioLevelFrom excluded m1 rest = .ok m := by
        simp only [getMaxPeakAudioLevelFrom, hn] at h
        split_ifs at h
        · exact ⟨_, h⟩
        · cases hp : a.peakAudioLevel with
          | error e => simp [hp] at h
          | ok pk => simp only [hp] at h; exact ⟨_, h⟩
      obtain ⟨m1, hm1⟩ := hrest
      rcases List.mem_cons.mp hs with h1 | h1
      · exact ⟨n, by rw [h1, hn]⟩
      · exact ih m1 m hm1 s h1

theorem getAudioSessionByExecutableName_absent (name : String) :
    ∀ sessions : List AudioSession,
      (∀ s ∈ sessions, ∃ n, s.executableName = .ok n) →
      (∀ s ∈ sessions, s.executableName ≠ .ok name) →
      getAudioSessionByExecutableName name sessions = .ok none := by
  intro sessions
  induction sessions with
  | nil => intro _ _; rfl
  | cons a rest ih =>
    intro hn ha
    obtain ⟨n, han⟩ := hn a (List.mem_cons_self _ _)
    have hne : n ≠ name := by
      intro h
      exact ha a (List.mem_cons_self _ _) (by rw [han, h])
    simp only [getAudioSessionByExecutableName, han]
    rw [if_neg (fun h => hne h.2)]
    exact ih (fun s hs => hn s (List.mem_cons_of_mem _ hs))
      (fun s hs => ha s (List.mem_cons_of_mem _ hs))

theorem tick_absent (p : Params) (w : World) (c : Counters) (h : ControlledAbsent p w) :
    tick p w c = ⟨c, p.paramTickIdleMS, [], [], none⟩ := by
  obtain ⟨sessions, m, hs, hm, ha⟩ := h
  have hfind := getAudioSessionByExecutableName_absent p.paramControlledExecutable sessions
    (getMaxPeakAudioLevelFrom_names _ sessions 0 m hm) ha
  simp [tick, hs, hm, hfind, tickDecision_absent]

/-! ## Loud ticks of the closed loop -/

theorem Loading.andThen_volumeMin (l : Loading) (f : Params → Loading)
    (h : ∀ q, (f q).params.paramVolumeMin = q.paramVolumeMin) :
    (l.andThen f).params.paramVolumeMin = l.params.paramVolumeMin := by
  unfold Loading.andThen
  split
  · exact h _
  · rfl

theorem assignFrom_volumeMin {α : Type} (r : Except String α) (assign : Params → α → Params)
    (p : Params) (h : ∀ q a, (assign q a).paramVolumeMin = q.paramVolumeMin) :
    (assignFrom r assign p).params.paramVolumeMin = p.paramVolumeMin := by
  cases r <;> simp [assignFrom, h]

theorem assignListFrom_volumeMin (r : Except String (List String)) (p : Params) :
    (assignListFrom r p).params.paramVolumeMin = p.paramVolumeMin := by
  cases r <;> simp [assignListFrom]

theorem readSettingsINI_volumeMin (ps : Parsers) (ini : SettingsINI) (p : Params) :
    (readSettingsINI ps ini p).params.paramVolumeMin = p.paramVolumeMin := by
  unfold readSettingsINI
  repeat rw [Loading.andThen_volumeMin]
  · exact assignFrom_volumeMin _ _ _ (fun _ _ => rfl)
  all_goals intro q
  all_goals first
    | exact assignFrom_volumeMin _ _ _ (fun _ _ => rfl)
    | exact assignListFrom_volumeMin _ _
    | rfl

theorem Loading.andThen_controlled (l : Loading) (f : Params → Loading)
    (hl : l.error = none → l.params.paramControlledExecutable ∈ l.params.paramExcludedExecutables)
    (hf : ∀ q, q.paramControlledExecutable ∈ q.paramExcludedExecutables →
      (f q).params.paramControlledExecutable ∈ (f q).params.paramExcludedExecutables)
    (h : (l.andThen f).error = none) :
    (l.andThen f).params.paramControlledExecutable ∈
      (l.andThen f).params.paramExcludedExecutables := by
  cases he : l.error with
  | none =>
    have hfl : l.andThen f = f l.params := by simp [Loading.andThen, he]
    rw [hfl]
    exact hf _ (hl he)
  | some e =>
    have hfl : l.andThen f = l := by simp [Loading.andThen, he]
    rw [hfl, he] at h
    exact absurd h (by simp)

theorem assignFrom_controlled {α : Type} (r : Except String α) (assign : Params → α → Params)
    (p : Params)
    (h1 : ∀ q a, (assign q a).paramControlledExecutable = q.paramControlledExecutable)
    (h2 : ∀ q a, (assign q a).paramExcludedExecutables = q.paramExcludedExecutables)
    (hp : p.paramControlledExecutable ∈ p.paramExcludedExecutables) :
    (assignFrom r assign p).params.paramControlledExecutable ∈
      (assignFrom r assign p).params.paramExcludedExecutables := by
  cases r <;> simp [assignFrom, h1, h2, hp]

theorem Loading.andThen_push_controlled (l : Loading)
    (h : (l.andThen fun p => ⟨{ p with paramExcludedExecutables :=
      p.paramExcludedExecutables ++ [p.paramControlledExecutable] }, none⟩).error = none) :
    (l.andThen fun p => ⟨{ p with paramExcludedExecutables :=
      p.paramExcludedExecutables ++ [p.paramControlledExecutable] }, none⟩).params.paramControlledExecutable ∈
    (l.andThen fun p => ⟨{ p with paramExcludedExecutables :=
      p.paramExcludedExecutables ++ [p.paramControlledExecutable] }, none⟩).params.paramExcludedExecutables := by
  cases he : l.error with
  | none => simp [Loading.andThen, he]
  | some e => simp [Loading.andThen, he] at h

theorem readSettingsINI_controlled (ps : Parsers) (ini : SettingsINI) (p : Params)
    (h : (readSettingsINI ps ini p).error = none) :
    (readSettingsINI ps ini p).params.paramControlledExecutable ∈
      (readSettingsINI ps ini p).params.paramExcludedExecutables := by
  unfold readSettingsINI at h ⊢
  refine Loading.andThen_controlled _ _ ?_
    (fun q hq => assignFrom_controlled _ _ q (fun _ _ => rfl) (fun _ _ => rfl) hq) h
  refine Loading.andThen_controlled _ _ ?_
    (fun q hq => assignFrom_controlled _ _ q (fun _ _ => rfl) (fun _ _ => rfl) hq)
  refine Loading.andThen_controlled _ _ ?_
    (fun q hq => assignFrom_controlled _ _ q (fun _ _ => rfl) (fun _ _ => rfl) hq)
  exact Loading.andThen_push_controlled _

theorem getMaxPeakAudioLevelFrom_congr (excluded : List String) (controlled : String)
    (hc : controlled ∈ excluded) :
    ∀ (l1 l2 : List AudioSession), List.Forall₂ (DiffersInControlledPeak controlled) l1 l2 →
      ∀ m0 : ℚ, getMaxPeakAudioLevelFrom excluded m0 l1 =
        getMaxPeakAudioLevelFrom excluded m0 l2 := by
  intro l1 l2 h
  induction h with
  | nil => intro m0; rfl
  | @cons a b ra rb hab _ ih =>
    intro m0
    obtain ⟨hn, _, _, hp⟩ := hab
    cases hna : a.executableName with
    | error e =>
      have hnb : b.executableName = .error e := by rw [← hn, hna]
      simp [getMaxPeakAudioLevelFrom, hna, hnb]
    | ok n =>
      have hnb : b.executableName = .ok n := by rw [← hn, hna]
      simp only [getMaxPeakAudioLevelFrom, hna, hnb]
      by_cases hex : n ∈ excluded
      · rw [if_pos hex, if_pos hex]
        exact ih m0
      · rw [if_neg hex, if_neg hex]
        have hne : a.executableName ≠ .ok controlled := by
          rw [hna]
          intro heq
          injection heq with heq
          exact hex (heq ▸ hc)
        rw [← hp hne]
        cases a.peakAudioLevel with
        | error e => rfl
        | ok q => exact ih _

theorem getAudioSessionByExecutableName_congr (controlled name : String) :
    ∀ (l1 l2 : List AudioSession), List.Forall₂ (DiffersInControlledPeak controlled) l1 l2 →
      (∃ e, getAudioSessionByExecutableName name l1 = .error e ∧
        getAudioSessionByExecutableName name l2 = .error e) ∨
      (getAudioSessionByExecutableName name l1 = .ok none ∧
        getAudioSessionByExecutableName name l2 = .ok none) ∨
      (∃ a b, getAudioSessionByExecutableName name l1 = .ok (some a) ∧
        getAudioSessionByExecutableName name l2 = .ok (some b) ∧
        DiffersInControlledPeak controlled a b) := by
  intro l1 l2 h
  induction h with
  | nil => exact Or.inr (Or.inl ⟨rfl, rfl⟩)
  | @cons a b ra rb hab _ ih =>
    have hn := hab.1
    cases hna : a.executableName with
    | error e =>
      have hnb : b.executableName = .error e := by rw [← hn, hna]
      exact Or.inl ⟨e, by simp [getAudioSessionByExecutableName, hna],
        by simp [getAudioSessionByExecutableName, hnb]⟩
    | ok n =>
      have hnb : b.executableName = .ok n := by rw [← hn, hna]
      simp only [getAudioSessionByExecutableName, hna, hnb]
      by_cases hm : n ≠ "" ∧ n = name
      · rw [if_pos hm, if_pos hm]
        exact Or.inr (Or.inr ⟨a, b, rfl, rfl, hab⟩)
      · rw [if_neg hm, if_neg hm]
        exact ih

theorem tickDecision_congr (p : Params) (bypassed k : Bool) (m : ℚ) (c : Counters)
    (controlled : String) (a b : AudioSession) (h : DiffersInControlledPeak controlled a b) :
    tickDecision p bypassed k m (some a) c = tickDecision p bypassed k m (some b) c := by
  obtain ⟨_, hv, hs, _⟩ := h
  simp only [tickDecision, bypassRestore, commitFadeStep, setSessionVolume, hv, hs]

theorem getMaxPeakAudioLevelFrom_spec (excluded : List String) :
    ∀ (sessions : List AudioSession) (m0 : ℚ),
      (∀ s ∈ sessions, ∃ n, s.executableName = .ok n ∧
        (n ∉ excluded → ∃ q, s.peakAudioLevel = .ok q ∧ 0 ≤ q ∧ q ≤ 1)) →
      ∃ m, getMaxPeakAudioLevelFrom excluded m0 sessions = .ok m ∧ m0 ≤ m ∧
        (∀ s ∈ sessions, ∀ n q, s.executableName = .ok n → n ∉ excluded →
          s.peakAudioLevel = .ok q → q ≤ m) ∧
        (m = m0 ∨ ∃ s ∈ sessions, ∃ n, s.executableName = .ok n ∧ n ∉ excluded ∧
          s.peakAudioLevel = .ok m) := by
  intro sessions
  induction sessions with
  | nil =>
    intro m0 _
    exact ⟨m0, rfl, le_refl _, fun s hs => absurd hs (List.not_mem_nil s), Or.inl rfl⟩
  | cons a rest ih =>
    intro m0 h
    obtain ⟨n, hn, hp⟩ := h a (List.mem_cons_self _ _)
    have hrest : ∀ s ∈ rest, ∃ n, s.executableName = .ok n ∧
        (n ∉ excluded → ∃ q, s.peakAudioLevel = .ok q ∧ 0 ≤ q ∧ q ≤ 1) :=
      fun s hs => h s (List.mem_cons_of_mem _ hs)
    by_cases hex : n ∈ excluded
    · obtain ⟨m, hm, hle, hub, hwit⟩ := ih m0 hrest
      refine ⟨m, by simp [getMaxPeakAudioLevelFrom, hn, hex, hm], hle, ?_, ?_⟩
      · intro s hs n' q hn' hex' hq
        rcases List.mem_cons.mp hs with h1 | h1
        · rw [h1, hn] at hn'
          injection hn' with hn'
          exact absurd (hn' ▸ hex) hex'
        · exact hub s h1 n' q hn' hex' hq
      · rcases hwit with h1 | ⟨s, hs, n', h1, h2, h3⟩
        · exact Or.inl h1
        · exact Or.inr ⟨s, List.mem_cons_of_mem _ hs, n', h1, h2, h3⟩
    · obtain ⟨q, hq, _, _⟩ := hp hex
      obtain ⟨m, hm, hle, hub, hwit⟩ := ih (if q > m0 then q else m0) hrest
      have hstep : getMaxPeakAudioLevelFrom excluded m0 (a :: rest) = .ok m := by
        simp only [getMaxPeakAudioLevelFrom, hn, if_neg hex, hq]
        exact hm
      have hm0 : m0 ≤ m := by
        refine le_trans ?_ hle
        split_ifs with hgt
        · exact le_of_lt hgt
        · exact le_refl _
      have hqm : q ≤ m := by
        refine le_trans ?_ hle
        split_ifs with hgt
        · exact le_refl _
        · exact not_lt.mp hgt
      refine ⟨m, hstep, hm0, ?_, ?_⟩
      · intro s hs n' q' hn' hex' hq'
        rcases List.mem_cons.mp hs with h1 | h1
        · rw [h1, hq] at hq'
          injection hq' with hq'
          rw [← hq']
          exact hqm
        · exact hub s h1 n' q' hn' hex' hq'
      · rcases hwit with h1 | ⟨s, hs, n', h1, h2, h3⟩
        · by_cases hgt : q > m0
          · rw [if_pos hgt] at h1
            exact Or.inr ⟨a, List.mem_cons_self _ _, n, hn, hex, by rw [hq, h1]⟩
          · rw [if_neg hgt] at h1
            exact Or.inl h1
        · exact Or.inr ⟨s, List.mem_cons_of_mem _ hs, n', h1, h2, h3⟩

theorem getMaxPeakAudioLevelFrom_skip (excluded : List String) (s : AudioSession) (n : String)
    (hn : s.executableName = .ok n) (hex : n ∈ excluded) :
    ∀ (pre post : List AudioSession) (m0 : ℚ),
      getMaxPeakAudioLevelFrom excluded m0 (pre ++ s :: post) =
        getMaxPeakAudioLevelFrom excluded m0 (pre ++ post) := by
  intro pre
  induction pre with
  | nil =>
    intro post m0
    simp [getMaxPeakAudioLevelFrom, hn, hex]
  | cons a rest ih =>
    intro post m0
    simp only [List.cons_append, getMaxPeakAudioLevelFrom]
    cases a.executableName with
    | error e => rfl
    | ok na =>
      simp only
      split_ifs
      · exact ih post m0
      · cases a.peakAudioLevel with
        | error e => rfl
        | ok q => exact ih post _

/-! ## The sleep interval -/

theorem runTicks_error_last (p : Params) :
    ∀ (worlds : List World) (c : Counters) (pre post : List Tick) (t : Tick),
      runTicks p c worlds = pre ++ t :: post → t.error ≠ none → post = [] := by
  intro worlds
  induction worlds with
  | nil =>
    intro c pre post t h
    simp [runTicks] at h
  | cons w rest ih =>
    intro c pre post t h ht
    simp only [runTicks] at h
    cases he : (tick p w c).error with
    | none =>
      rw [he] at h
      cases pre with
      | nil =>
        simp only [List.nil_append, List.cons.injEq] at h
        rw [← h.1, he] at ht
        exact absurd rfl ht
      | cons a pre' =>
        simp only [List.cons_append, List.cons.injEq] at h
        exact ih _ pre' post t h.2 ht
    | some e =>
      rw [he] at h
      cases pre with
      | nil =>
        simp only [List.nil_append, List.cons.injEq] at h
        exact h.2.symm
      | cons a pre' =>
        simp only [List.cons_append, List.cons.injEq] at h
        exact absurd h.2 (by simp)

theorem getLast?_of_error (p : Params) (c : Counters) (worlds : List World) (t : Tick)
    (ht : t ∈ runTicks p c worlds) (he : t.error ≠ none) :
    (runTicks p c worlds).getLast? = some t := by
  obtain ⟨pre, post, hsplit⟩ := List.append_of_mem ht
  have hpost := runTicks_error_last p worlds c pre post t hsplit he
  rw [hsplit, hpost]
  simp

theorem handleError_ne (what : String) : handleError what ≠ "" := by
  unfold handleError
  split_ifs with h
  · decide
  · exact h

theorem restoreVolume_calls (p : Params) (final : World) :
    (restoreVolume p final).1 = [] ∨ (restoreVolume p final).1 = [p.paramVolumeRestore] := by
  unfold restoreVolume
  cases final.audioSessions with
  | error e => exact Or.inl rfl
  | ok sessions =>
    simp only
    cases getAudioSessionByExecutableName p.paramControlledExecutable sessions with
    | error e => exact Or.inl rfl
    | ok o =>
      cases o with
      | none => exact Or.inl rfl
      | some s => exact Or.inr rfl

/-! ## binary32 rounding: monotonicity and representable numbers -/

theorem getAudioSessionByExecutableName_found (name : String) (hname : name ≠ "")
    (s : AudioSession) (hs : s.executableName = .ok name) (post : List AudioSession) :
    ∀ pre : List AudioSession,
      (∀ a ∈ pre, ∃ n, a.executableName = .ok n ∧ n ≠ name) →
      getAudioSessionByExecutableName name (pre ++ s :: post) = .ok (some s) := by
  intro pre
  induction pre with
  | nil =>
    intro _
    simp [getAudioSessionByExecutableName, hs, hname]
  | cons a rest ih =>
    intro h
    obtain ⟨n, han, hne⟩ := h a (List.mem_cons_self _ _)
    simp only [List.cons_append, getAudioSessionByExecutableName, han]
    rw [if_neg (fun hh => hne hh.2)]
    exact ih (fun b hb => h b (List.mem_cons_of_mem _ hb))

/-! ## The claims -/

/-- C1: on the normal path (session present with volume `v`, not bypassed,
`|v - volumeTarget| > 0.001`), when a counter has reached its threshold after this
tick's increment, exactly one volume is passed to the controlled session and it is
`clamp(v + d * (volumeMax - volumeMin) * (tickTransitionMs / fadeSpeedMs))` into
`[volumeMin, volumeMax]`, with `d = -1` if `v > volumeTarget` and `d = +1` otherwise. -/
theorem C1_fade_step_value (p : Params) (k : Bool) (m v : ℚ) (s : AudioSession)
    (c : Counters) (hv : s.sessionVolume = .ok v)
    (hT : |v - volumeTarget p false m| > 1 / 1000)
    (hthr : atThreshold p (incrementCounters p (volumeTarget p false m) c) = true)
    (_hf : p.paramFadeSpeedMS ≠ 0) :
    (tickDecision p false k m (some s) c).volumeSetCalls =
      [min (max (v + (if v > volumeTarget p false m then -1 else 1) *
          (p.paramVolumeMax - p.paramVolumeMin) *
          (p.paramTickTransitionMS / p.paramFadeSpeedMS)) p.paramVolumeMin)
        p.paramVolumeMax] := by
  rw [tickDecision_normal p k m v s c hv hT, if_pos hthr,
    commitFadeStep_volumeSetCalls p k s v _ _ rfl]
  simp only [List.nil_append, newVolume, step, directionMult, sub_pos, gt_iff_lt]
  congr 3
  ring

/-- Witness of C1: the first loud tick of the default configuration at volume 0.2
writes 0.19. -/
theorem C1_fade_step_value_witness :
    (tickDecision defaultParams false true (1 / 2)
      (some (liveSession defaultParams (1 / 5))) ⟨0, 0⟩).volumeSetCalls = [19 / 100] :=
  (C1_fade_step_value defaultParams true (1 / 2) (1 / 5) (liveSession defaultParams (1 / 5))
    ⟨0, 0⟩ rfl (lt_abs.mpr (Or.inl (by norm_num [volumeTarget, defaultParams])))
    (by simp [atThreshold, incrementCounters, volumeTarget, defaultParams, wrapInt])
    (by norm_num [defaultParams])).trans
    (by norm_num [volumeTarget, defaultParams])

/-- C2: from zero counters, with thresholds that are C++ `int`s `>= 1`, after every
completed tick of every run (any peak levels, bypass settings, session present or
absent, any volumes) both counters lie between 0 and their thresholds. -/
theorem C2_counters_saturate (p : Params)
    (hT1 : 1 ≤ p.paramConsecutiveMinimumsToTrigger)
    (hT2 : p.paramConsecutiveMinimumsToTrigger ≤ INT_MAX)
    (hE1 : 1 ≤ p.paramConsecutiveMinimumsToEnd)
    (hE2 : p.paramConsecutiveMinimumsToEnd ≤ INT_MAX)
    (inputs : List TickInput) :
    ∀ t ∈ runDecisions p ⟨0, 0⟩ inputs, t.error = none →
      0 ≤ t.counters.currentConsecutiveMinimumsToTrigger ∧
      t.counters.currentConsecutiveMinimumsToTrigger ≤ p.paramConsecutiveMinimumsToTrigger ∧
      0 ≤ t.counters.currentConsecutiveMinimumsToEnd ∧
      t.counters.currentConsecutiveMinimumsToEnd ≤ p.paramConsecutiveMinimumsToEnd := by
  intro t ht hte
  have h0 : CountersInv p ⟨0, 0⟩ :=
    Or.inr ⟨le_refl _, by simpa using hT1, le_refl _, by simpa using hE1⟩
  exact (runDecisions_inv p hT1 hT2 hE1 hE2 inputs _ h0 t ht hte).bounds hT1 hE1

/-- Witness of C2: the state after the first loud tick of the default configuration. -/
theorem C2_counters_saturate_witness :
    0 ≤ (1 : Int) ∧ (1 : Int) ≤ defaultParams.paramConsecutiveMinimumsToTrigger ∧
      0 ≤ (3 : Int) ∧ (3 : Int) ≤ defaultParams.paramConsecutiveMinimumsToEnd :=
  C2_counters_saturate defaultParams (by decide) (by decide) (by decide) (by decide)
    [⟨false, true, 1 / 2, some (liveSession defaultParams (1 / 5))⟩]
    ⟨⟨1, 3⟩, 50, [19 / 100], [], none⟩
    (by
      norm_num [runDecisions, tickDecision, volumeTarget, defaultParams, liveSession,
        Tick.andThen, incrementCounters, atThreshold, commitFadeStep, setSessionVolume,
        runCommandSilent, newVolume, step, directionMult, wrapInt, lt_abs])
    rfl

/-- C8: in a run of ticks in each of which no visible session has the controlled
executable's name, every tick is executed without error, writes no volume, fires no
command, chooses the idle interval and leaves both counters exactly as they were before
the gap. -/
theorem C8_absent_session (p : Params) (c : Counters) (ws : List World)
    (h : ∀ w ∈ ws, ControlledAbsent p w) :
    runTicks p c ws = List.replicate ws.length ⟨c, p.paramTickIdleMS, [], [], none⟩ := by
  induction ws with
  | nil => simp [runTicks]
  | cons w rest ih =>
    have hw := tick_absent p w c (h w (List.mem_cons_self _ _))
    have ih' := ih (fun w' hw' => h w' (List.mem_cons_of_mem _ hw'))
    simp only [runTicks, hw, List.length_cons, List.replicate_succ, ih']

/-- Witness of C8: five ticks in which only `game.exe` is visible leave the counters
`(1, 2)` of the default configuration untouched. -/
theorem C8_absent_session_witness :
    runTicks defaultParams ⟨1, 2⟩ (List.replicate 5
        ⟨false, .ok [⟨.ok "game.exe", .ok (1 / 2), .ok 1, true⟩], true⟩) =
      List.replicate 5 ⟨⟨1, 2⟩, 1000, [], [], none⟩ :=
  C8_absent_session defaultParams ⟨1, 2⟩ (List.replicate 5
      ⟨false, .ok [⟨.ok "game.exe", .ok (1 / 2), .ok 1, true⟩], true⟩)
    (fun w hw => by
      rw [List.eq_of_mem_replicate hw]
      refine ⟨[⟨.ok "game.exe", .ok (1 / 2), .ok 1, true⟩], 1 / 2, rfl, ?_, ?_⟩
      · norm_num [getMaxPeakAudioLevel, getMaxPeakAudioLevelFrom, defaultParams]
        decide
      · intro s hs
        rw [List.mem_singleton.mp hs]
        simp [defaultParams])

/-- C9 fails on the code: the duck command is launched only when the `float` written
equals `volumeMin` exactly (line 400), while the fade is over as soon as the volume is
within 0.001 of `volumeMin` (line 349).  With `fVolumeMax=0.3` a complete duck from
`volumeMax` under continuously loud input makes 20 writes, the last one `3 / 2^26`,
then none, and launches no command on any tick; with the default settings a duck
started at the `float` volume 0.0105 writes `268435 / 2^29` and launches no command
either; whereas the duck from the default `volumeMax` 0.2 happens to end on exactly
0.0 and launches the command on its 20th tick. -/
theorem C9_duck_command_missed :
    FloatParams wideRangeParams32 ∧ FloatParams defaultParams32 ∧
    IsFloat32 (11274289 / 1073741824) ∧
    ((closedLoop32 wideRangeParams32 ⟨0, 0⟩ wideRangeParams32.paramVolumeMax
        (List.replicate 22 (1 / 2))).map (fun x => x.2.commandsRun) =
        List.replicate 22 [] ∧
      ((closedLoop32 wideRangeParams32 ⟨0, 0⟩ wideRangeParams32.paramVolumeMax
        (List.replicate 22 (1 / 2))).map (fun x => x.2.volumeSetCalls)).drop 19 =
        [[3 / 67108864], [], []]) ∧
    (closedLoop32 defaultParams32 ⟨0, 0⟩ (11274289 / 1073741824) [1 / 2, 1 / 2, 1 / 2]).map
        (fun x => (x.1, x.2.volumeSetCalls, x.2.commandsRun)) =
      [(11274289 / 1073741824, [268435 / 536870912], []),
        (268435 / 536870912, [], []), (268435 / 536870912, [], [])] ∧
    ((closedLoop32 defaultParams32 ⟨0, 0⟩ defaultParams32.paramVolumeMax
        (List.replicate 22 (1 / 2))).map (fun x => (x.2.volumeSetCalls, x.2.commandsRun))).drop
        19 = [([0], ["cmd.exe /C "]), ([], []), ([], [])] := by
  decide!

/-- C10 fails on the code: the trigger counter is not reset by a quiet tick.  With both
thresholds 2 and the session at the `float` volume 0.1, the peaks 0.5, 0.0, 0.5 from
zero counters commit nothing on the first two ticks, the quiet second tick leaves the
trigger counter at 1, and the third tick commits a fade step toward `volumeMin`
although the tick before it was quiet, that is after one consecutive loud sample where
`consecutiveMinimumsToTrigger` is 2. -/
theorem C10_samples_not_consecutive :
    FloatParams twoSampleParams32 ∧ IsFloat32 (13421773 / 134217728) ∧
    twoSampleParams32.paramConsecutiveMinimumsToTrigger = 2 ∧
    (closedLoop32 twoSampleParams32 ⟨0, 0⟩ (13421773 / 134217728) [1 / 2, 0, 1 / 2]).map
        (fun x => (x.1, x.2.volumeSetCalls, x.2.counters)) =
      [(13421773 / 134217728, [], ⟨1, 0⟩), (13421773 / 134217728, [], ⟨1, 1⟩),
        (13421773 / 134217728, [3019899 / 33554432], ⟨2, 2⟩)] ∧
    (3019899 / 33554432 : ℚ) < 13421773 / 134217728 := by
  decide!

/-- C12: after a successful `readSettingsINI` the controlled executable is a member of
the excluded executables, and therefore for two session lists that differ only in the
peak level of sessions named like the controlled executable `getMaxPeakAudioLevel`
gives the same result, the tick has the same `volumeTarget`, and the whole tick has
the same outcome. -/
theorem C12_controlled_never_triggers (ps : Parsers) (ini : SettingsINI) (p0 : Params)
    (h : (readSettingsINI ps ini p0).error = none) :
    (readSettingsINI ps ini p0).params.paramControlledExecutable ∈
      (readSettingsINI ps ini p0).params.paramExcludedExecutables ∧
    ∀ l1 l2 : List AudioSession,
      List.Forall₂ (DiffersInControlledPeak
        (readSettingsINI ps ini p0).params.paramControlledExecutable) l1 l2 →
      getMaxPeakAudioLevel l1 (readSettingsINI ps ini p0).params.paramExcludedExecutables =
        getMaxPeakAudioLevel l2 (readSettingsINI ps ini p0).params.paramExcludedExecutables ∧
      (∀ bypassed : Bool,
        (getMaxPeakAudioLevel l1
            (readSettingsINI ps ini p0).params.paramExcludedExecutables).map
          (volumeTarget (readSettingsINI ps ini p0).params bypassed) =
        (getMaxPeakAudioLevel l2
            (readSettingsINI ps ini p0).params.paramExcludedExecutables).map
          (volumeTarget (readSettingsINI ps ini p0).params bypassed)) ∧
      (∀ (bypassed k : Bool) (c : Counters),
        tick (readSettingsINI ps ini p0).params ⟨bypassed, .ok l1, k⟩ c =
          tick (readSettingsINI ps ini p0).params ⟨bypassed, .ok l2, k⟩ c) := by
  have hc := readSettingsINI_controlled ps ini p0 h
  refine ⟨hc, fun l1 l2 hl => ?_⟩
  have hmax : getMaxPeakAudioLevel l1
        (readSettingsINI ps ini p0).params.paramExcludedExecutables =
      getMaxPeakAudioLevel l2 (readSettingsINI ps ini p0).params.paramExcludedExecutables :=
    getMaxPeakAudioLevelFrom_congr _ _ hc l1 l2 hl 0
  refine ⟨hmax, fun b => by rw [hmax], fun b k c => ?_⟩
  simp only [tick, hmax]
  cases getMaxPeakAudioLevel l2 (readSettingsINI ps ini p0).params.paramExcludedExecutables with
  | error e => rfl
  | ok m =>
    simp only
    rcases getAudioSessionByExecutableName_congr _
      (readSettingsINI ps ini p0).params.paramControlledExecutable l1 l2 hl with
      ⟨e, h1, h2⟩ | ⟨h1, h2⟩ | ⟨a, b', h1, h2, hab⟩
    · rw [h1, h2]
    · rw [h1, h2]
    · rw [h1, h2]
      exact tickDecision_congr _ b k m c _ a b' hab

/-- Witness of C12: after loading `SETTINGS_DEFAULT`, a list in which `foobar2000.exe`
peaks at 0.9 and `game.exe` at 0.1 gives the same maximum as the list in which
`foobar2000.exe` is silent. -/
theorem C12_controlled_never_triggers_witness :
    getMaxPeakAudioLevel
        [⟨.ok "foobar2000.exe", .ok (9 / 10), .ok 1, true⟩,
          ⟨.ok "game.exe", .ok (1 / 10), .ok 1, true⟩]
        (readSettingsINI defaultParsers defaultINI staleParams).params.paramExcludedExecutables =
      getMaxPeakAudioLevel
        [⟨.ok "foobar2000.exe", .ok 0, .ok 1, true⟩,
          ⟨.ok "game.exe", .ok (1 / 10), .ok 1, true⟩]
        (readSettingsINI defaultParsers defaultINI staleParams).params.paramExcludedExecutables :=
  ((C12_controlled_never_triggers defaultParsers defaultINI staleParams
    (by
      simp [readSettingsINI, Loading.andThen, assignFrom, assignListFrom, readINIFloat,
        readINIInt, readINIList, defaultINI, defaultParsers])).2
    [⟨.ok "foobar2000.exe", .ok (9 / 10), .ok 1, true⟩,
      ⟨.ok "game.exe", .ok (1 / 10), .ok 1, true⟩]
    [⟨.ok "foobar2000.exe", .ok 0, .ok 1, true⟩,
      ⟨.ok "game.exe", .ok (1 / 10), .ok 1, true⟩]
    (List.Forall₂.cons
      ⟨rfl, rfl, rfl, fun hne => absurd (by
        simp [readSettingsINI, Loading.andThen, assignFrom, assignListFrom, readINIFloat,
          readINIInt, readINIList, defaultINI, defaultParsers]) hne⟩
      (List.Forall₂.cons ⟨rfl, rfl, rfl, fun _ => rfl⟩ List.Forall₂.nil))).1

/-- C14 fails on the code: `readSettingsINI` never reads `fVolumeMin`; whatever the
settings file holds, `paramVolumeMin` keeps the value it had before the call.  Loading
`SETTINGS_DEFAULT` into an engine whose `paramVolumeMin` is 0.7 succeeds and sets
`paramVolumeMax` to 0.2 but leaves `paramVolumeMin` at 0.7, not 0.0. -/
theorem C14_volumeMin_not_loaded :
    (∀ (ps : Parsers) (ini : SettingsINI) (p : Params),
      (readSettingsINI ps ini p).params.paramVolumeMin = p.paramVolumeMin) ∧
    (readSettingsINI defaultParsers defaultINI staleParams).error = none ∧
    (readSettingsINI defaultParsers defaultINI staleParams).params.paramVolumeMax = 1 / 5 ∧
    (readSettingsINI defaultParsers defaultINI staleParams).params.paramVolumeMin = 7 / 10 ∧
    defaultParsers.stof "0.0" = .ok 0 := by
  refine ⟨readSettingsINI_volumeMin, ?_, ?_, ?_, ?_⟩
  · simp [readSettingsINI, Loading.andThen, assignFrom, assignListFrom, readINIFloat,
      readINIInt, readINIList, defaultINI, defaultParsers]
  · simp [readSettingsINI, Loading.andThen, assignFrom, assignListFrom, readINIFloat,
      readINIInt, readINIList, defaultINI, defaultParsers]
  · rw [readSettingsINI_volumeMin]
    rfl
  · simp [defaultParsers]

/-- C15 fails on the code: `runCommandSilent` has no test for an empty command.  With
the default settings (both commands empty) the tick that brings the volume down to
`volumeMin` launches the process `cmd.exe /C ` and waits for it; when the process
cannot be created the tick ends in the error "Failed to create process for command",
whereas the same tick without a command edge (one step earlier in the fade) launches
nothing. -/
theorem C15_empty_command_launches_process :
    defaultParams.paramCommandOnDuck = "" ∧
    (tickDecision defaultParams false true (1 / 2)
      (some (liveSession defaultParams (1 / 100))) ⟨1, 3⟩).commandsRun = ["cmd.exe /C "] ∧
    (tickDecision defaultParams false false (1 / 2)
      (some (liveSession defaultParams (1 / 100))) ⟨1, 3⟩).error =
        some "Failed to create process for command" ∧
    (tickDecision defaultParams false false (1 / 2)
      (some (liveSession defaultParams (2 / 100))) ⟨1, 3⟩).error = none ∧
    (∀ (k : Bool) (t : Tick),
      (runCommandSilent k "" t).commandsRun = t.commandsRun ++ ["cmd.exe /C "]) := by
  refine ⟨rfl, ?_, ?_, ?_, ?_⟩
  · norm_num [tickDecision, volumeTarget, defaultParams, liveSession, Tick.andThen,
      incrementCounters, atThreshold, commitFadeStep, setSessionVolume, runCommandSilent,
      newVolume, step, directionMult, wrapInt, lt_abs, CMD_START]
  · norm_num [tickDecision, volumeTarget, defaultParams, liveSession, Tick.andThen,
      incrementCounters, atThreshold, commitFadeStep, setSessionVolume, runCommandSilent,
      newVolume, step, directionMult, wrapInt, lt_abs, CMD_START]
  · norm_num [tickDecision, volumeTarget, defaultParams, liveSession, Tick.andThen,
      incrementCounters, atThreshold, commitFadeStep, setSessionVolume, runCommandSilent,
      newVolume, step, directionMult, wrapInt, lt_abs, CMD_START]
  · intro k t
    cases k <;> simp [runCommandSilent, CMD_START]

/-- C16: when the settings were loaded and `init` succeeded, and some tick of the run
fails (session enumeration, reading a name, a peak or the volume, setting the volume or
running a command), that tick is the last one executed; the engine then makes at most
one `setSessionVolume` call, with `volumeRestore`: exactly one when the sessions can be
enumerated and a session with the controlled name is visible (the names before it being
readable), and none when no visible session has that name; and `running` returns
`true` with a non-empty error string, whether or not the restore attempt fails. -/
theorem C16_operational_errors_end_run (ps : Parsers) (ini : SettingsINI)
    (init : Except String Unit) (p0 : Params) (c : Counters) (worlds : List World)
    (final : World) (t : Tick)
    (hload : (readSettingsINI ps ini p0).error = none) (hinit : init = .ok ())
    (ht : t ∈ runTicks (readSettingsINI ps ini p0).params c worlds)
    (hte : t.error ≠ none) :
    (running ps ini init p0 c worlds final).ticks =
      runTicks (readSettingsINI ps ini p0).params c worlds ∧
    (running ps ini init p0 c worlds final).ticks.getLast? = some t ∧
    (∀ pre post t', (running ps ini init p0 c worlds final).ticks = pre ++ t' :: post →
      t'.error ≠ none → post = []) ∧
    ((running ps ini init p0 c worlds final).restoreCalls = [] ∨
      (running ps ini init p0 c worlds final).restoreCalls =
        [(readSettingsINI ps ini p0).params.paramVolumeRestore]) ∧
    (∀ (pre : List AudioSession) (s : AudioSession) (post : List AudioSession),
      final.audioSessions = .ok (pre ++ s :: post) →
      (∀ a ∈ pre, ∃ n, a.executableName = .ok n ∧
        n ≠ (readSettingsINI ps ini p0).params.paramControlledExecutable) →
      s.executableName = .ok (readSettingsINI ps ini p0).params.paramControlledExecutable →
      (readSettingsINI ps ini p0).params.paramControlledExecutable ≠ "" →
      (running ps ini init p0 c worlds final).restoreCalls =
        [(readSettingsINI ps ini p0).params.paramVolumeRestore]) ∧
    (∀ sessions : List AudioSession, final.audioSessions = .ok sessions →
      (∀ a ∈ sessions, ∃ n, a.executableName = .ok n ∧
        n ≠ (readSettingsINI ps ini p0).params.paramControlledExecutable) →
      (running ps ini init p0 c worlds final).restoreCalls = []) ∧
    (running ps ini init p0 c worlds final).errorString ≠ "" ∧
    (running ps ini init p0 c worlds final).returned = true := by
  have hlast := getLast?_of_error _ c worlds t ht hte
  have hr : running ps ini init p0 c worlds final =
      ⟨runTicks (readSettingsINI ps ini p0).params c worlds,
        (restoreVolume (readSettingsINI ps ini p0).params final).1,
        (match (restoreVolume (readSettingsINI ps ini p0).params final).2 with
          | some e => handleError e
          | none => errorAfterLoop (runTicks (readSettingsINI ps ini p0).params c worlds)),
        hasError (match (restoreVolume (readSettingsINI ps ini p0).params final).2 with
          | some e => handleError e
          | none =>
            errorAfterLoop (runTicks (readSettingsINI ps ini p0).params c worlds))⟩ := by
    subst hinit
    unfold running
    generalize readSettingsINI ps ini p0 = L at hload ⊢
    rw [hload]
  have herr : (match (restoreVolume (readSettingsINI ps ini p0).params final).2 with
      | some e => handleError e
      | none => errorAfterLoop (runTicks (readSettingsINI ps ini p0).params c worlds)) ≠ "" := by
    cases (restoreVolume (readSettingsINI ps ini p0).params final).2 with
    | some e => exact handleError_ne e
    | none =>
      simp only [errorAfterLoop, hlast]
      cases hte' : t.error with
      | none => exact absurd hte' hte
      | some e => exact handleError_ne e
  rw [hr]
  refine ⟨rfl, hlast, ?_, restoreVolume_calls _ final, ?_, ?_, herr, ?_⟩
  · intro pre post t' hsplit ht'
    exact runTicks_error_last _ worlds c pre post t' hsplit ht'
  · intro pre s post hs hpre hname hne
    have hfind := getAudioSessionByExecutableName_found _ hne s hname post pre hpre
    simp [restoreVolume, hs, hfind]
  · intro sessions hs hall
    have hfind := getAudioSessionByExecutableName_absent
      (readSettingsINI ps ini p0).params.paramControlledExecutable sessions
      (fun a ha => (hall a ha).elim fun n hn => ⟨n, hn.1⟩)
      (fun a ha => (hall a ha).elim fun n hn => by
        rw [hn.1]
        intro heq
        injection heq with heq
        exact hn.2 heq)
    simp [restoreVolume, hs, hfind]
  · simp only [hasError, decide_eq_true_eq]
    exact herr

/-- Witness of C16: the default settings; the first iteration fails to enumerate the
sessions; afterwards `foobar2000.exe` is visible, the restore volume 1 is written once
and the run returns `true`. -/
theorem C16_operational_errors_end_run_witness :
    (running defaultParsers defaultINI (.ok ()) staleParams ⟨0, 0⟩
        [brokenWorld, restoreWorld] restoreWorld).restoreCalls = [1] ∧
      (running defaultParsers defaultINI (.ok ()) staleParams ⟨0, 0⟩
        [brokenWorld, restoreWorld] restoreWorld).returned = true :=
  have h := C16_operational_errors_end_run defaultParsers defaultINI (.ok ()) staleParams
    ⟨0, 0⟩ [brokenWorld, restoreWorld] restoreWorld
    (tick (readSettingsINI defaultParsers defaultINI staleParams).params brokenWorld ⟨0, 0⟩)
    (by
      simp [readSettingsINI, Loading.andThen, assignFrom, assignListFrom, readINIFloat,
        readINIInt, readINIList, defaultINI, defaultParsers])
    rfl
    (by simp [runTicks, tick, brokenWorld])
    (by simp [tick, brokenWorld])
  ⟨(h.2.2.2.2.1 [] ⟨.ok "foobar2000.exe", .ok 0, .ok (1 / 10), true⟩ [] rfl
      (fun a ha => absurd ha (List.not_mem_nil a))
      (by
        simp [readSettingsINI, Loading.andThen, assignFrom, assignListFrom, readINIFloat,
          readINIInt, readINIList, defaultINI, defaultParsers])
      (by
        simp [readSettingsINI, Loading.andThen, assignFrom, assignListFrom, readINIFloat,
          readINIInt, readINIList, defaultINI, defaultParsers])).trans
      (by
        simp [readSettingsINI, Loading.andThen, assignFrom, assignListFrom, readINIFloat,
          readINIInt, readINIList, defaultINI, defaultParsers]),
    h.2.2.2.2.2.2.2⟩

/-- C17: for sessions whose names are readable and whose non-excluded peak levels are
readable and lie in `[0, 1]`, `getMaxPeakAudioLevel` returns a value `m` that bounds
every non-excluded peak level, is the peak level of some non-excluded session when
there is one, and is 0 when there is none; and a session whose name is in the excluded
list never changes the result, wherever it stands in the list. -/
theorem C17_excluded_maximum (sessions : List AudioSession) (excluded : List String)
    (h : ∀ s ∈ sessions, ∃ n, s.executableName = .ok n ∧
      (n ∉ excluded → ∃ q, s.peakAudioLevel = .ok q ∧ 0 ≤ q ∧ q ≤ 1)) :
    (∃ m, getMaxPeakAudioLevel sessions excluded = .ok m ∧
      (∀ s ∈ sessions, ∀ n q, s.executableName = .ok n → n ∉ excluded →
        s.peakAudioLevel = .ok q → q ≤ m) ∧
      ((∃ s ∈ sessions, ∃ n, s.executableName = .ok n ∧ n ∉ excluded) →
        ∃ s ∈ sessions, ∃ n, s.executableName = .ok n ∧ n ∉ excluded ∧
          s.peakAudioLevel = .ok m) ∧
      ((∀ s ∈ sessions, ∀ n, s.executableName = .ok n → n ∈ excluded) → m = 0)) ∧
    (∀ (pre post : List AudioSession) (s : AudioSession) (n : String),
      s.executableName = .ok n → n ∈ excluded →
      getMaxPeakAudioLevel (pre ++ s :: post) excluded =
        getMaxPeakAudioLevel (pre ++ post) excluded) := by
  refine ⟨?_, fun pre post s n hn hex =>
    getMaxPeakAudioLevelFrom_skip excluded s n hn hex pre post 0⟩
  obtain ⟨m, hm, hle, hub, hwit⟩ := getMaxPeakAudioLevelFrom_spec excluded sessions 0 h
  refine ⟨m, hm, hub, ?_, ?_⟩
  · rintro ⟨s0, hs0, n0, hn0, hex0⟩
    rcases hwit with h1 | hw
    · obtain ⟨n1, hn1, hp1⟩ := h s0 hs0
      have hnn : n1 = n0 := by
        rw [hn0] at hn1
        injection hn1 with hn1
        exact hn1.symm
      obtain ⟨q, hq, hq0, _⟩ := hp1 (hnn ▸ hex0)
      have hqm := hub s0 hs0 n0 q hn0 hex0 hq
      have : q = m := le_antisymm hqm (by rw [h1]; exact hq0)
      exact ⟨s0, hs0, n0, hn0, hex0, by rw [hq, this]⟩
    · exact hw
  · intro hall
    rcases hwit with h1 | ⟨s, hs, n, hn, hex, _⟩
    · exact h1
    · exact absurd (hall s hs n hn) hex

/-- Witness of C17: `game.exe` peaks at 0.3, `chat.exe` at 0.7 and the excluded
`foobar2000.exe` at 0.9; the result bounds the peak 0.7 of `chat.exe`. -/
theorem C17_excluded_maximum_witness :
    ∃ m, getMaxPeakAudioLevel
        [⟨.ok "game.exe", .ok (3 / 10), .ok 1, true⟩,
          ⟨.ok "foobar2000.exe", .ok (9 / 10), .ok 1, true⟩,
          ⟨.ok "chat.exe", .ok (7 / 10), .ok 1, true⟩] ["foobar2000.exe"] = .ok m ∧
      (7 / 10 : ℚ) ≤ m :=
  have h := (C17_excluded_maximum
    [⟨.ok "game.exe", .ok (3 / 10), .ok 1, true⟩,
      ⟨.ok "foobar2000.exe", .ok (9 / 10), .ok 1, true⟩,
      ⟨.ok "chat.exe", .ok (7 / 10), .ok 1, true⟩] ["foobar2000.exe"]
    (by
      intro s hs
      simp only [List.mem_cons, List.mem_singleton, List.not_mem_nil, or_false] at hs
      rcases hs with h | h | h
      · exact ⟨"game.exe", by rw [h], fun _ => ⟨3 / 10, by rw [h], by norm_num, by norm_num⟩⟩
      · exact ⟨"foobar2000.exe", by rw [h], fun hne => absurd (by simp) hne⟩
      · exact ⟨"chat.exe", by rw [h], fun _ => ⟨7 / 10, by rw [h], by norm_num, by norm_num⟩⟩)).1
  h.elim fun m hm => ⟨m, hm.1, hm.2.1 ⟨.ok "chat.exe", .ok (7 / 10), .ok 1, true⟩
    (by simp) "chat.exe" (7 / 10) rfl (by decide) rfl⟩

end AutoDuck
